import Mathlib

/-!
Verification of the Sensex post-market analytics pipeline
(`sensex_bot`: indicator engine, signal generator, risk engine,
probability engine) against its natural-language specification.

Numeric model: Python floats are embedded as rationals (`ℚ`).
Python's `round(x, n)` (IEEE round-half-to-even, idealised to exact
decimal arithmetic) is embedded as `roundHE`.  The floating-point
square root used by the risk engine (`numpy`/pandas `std`,
`np.sqrt(252)`) has no rational counterpart, so the risk engine is
parametrised by an abstract square-root function `sq : ℚ → ℚ`; no
claim under verification depends on its value except at `0`.
-/

namespace SensexBot

/-- Round-half-to-even to an integer (Python's `round(x)` semantics,
idealised over `ℚ`): ties at `.5` go to the even neighbour. -/
def roundHE (q : ℚ) : ℤ :=
  if Int.fract q = 1 / 2 ∧ Even ⌊q⌋ then ⌊q⌋ else round q

/-- Python's `round(x, 2)` over the rational model. -/
def round2 (q : ℚ) : ℚ := (roundHE (q * 100) : ℚ) / 100

/-- Python's `round(x, 4)` over the rational model. -/
def round4 (q : ℚ) : ℚ := (roundHE (q * 10000) : ℚ) / 10000

/-- `clamp(x, lo, hi)` as the specification writes it. -/
def clampQ (x lo hi : ℚ) : ℚ := max lo (min hi x)

/-- One row of an Enriched Bar Table as the signal and risk stages
consume it: the `Close` column plus every derived indicator column. -/
structure Row where
  Close : ℚ
  RSI14 : ℚ
  SMA20 : ℚ
  SMA50 : ℚ
  SMA200 : ℚ
  EMA20 : ℚ
  VWAP : ℚ
  MACD : ℚ
  MACDSignal : ℚ
  MACDHist : ℚ
  Ret1D : ℚ
  Ret5D : ℚ
  VolumeAvg20 : ℚ
  VolumeRatio : ℚ
deriving DecidableEq

/-- Embeds `_buy_score` from `signal_generator.py`: the running
`score += ...` accumulation written as a left-associated sum. -/
def buyScore (row : Row) : ℚ :=
  0 + (if row.SMA20 > row.SMA50 then 20 else 0)
    + (if row.SMA50 > row.SMA200 then 15 else 0)
    + (if 40 ≤ row.RSI14 ∧ row.RSI14 ≤ 70 then 20 else 0)
    + (if row.MACD > row.MACDSignal then 20 else 0)
    + (if row.VolumeRatio > 1.2 then 15 else 0)
    + min (max (row.Ret5D * 100) 0) 10

/-- Embeds `_sell_score` from `signal_generator.py`. -/
def sellScore (row : Row) : ℚ :=
  0 + (if row.RSI14 > 75 then 20 else 0)
    + (if row.SMA20 < row.SMA50 then 20 else 0)
    + (if row.SMA50 < row.SMA200 then 15 else 0)
    + (if row.MACD < row.MACDSignal then 20 else 0)
    + (if row.VolumeRatio > 1.2 ∧ row.Ret1D < 0 then 15 else 0)
    + min |min (row.Ret5D * 100) 0| 10

/-- Embeds the `TradeSignal` dataclass.  The textual `entry_zone`
band and `reason` string are presentation-only (f-string rendering of
the same numbers); the entry band is modelled by its two 2-decimal
endpoints and the reason string is not modelled. -/
structure TradeSignal where
  symbol : String
  signal : String
  current_price : ℚ
  entry_zone_low : ℚ
  entry_zone_high : ℚ
  target_price : ℚ
  stop_loss : ℚ
  signal_score : ℚ
deriving DecidableEq

/-- The BUY `TradeSignal` built in `generate_signals` for a symbol
whose latest enriched row is `latest`. -/
def mkBuySignal (symbol : String) (latest : Row) : TradeSignal :=
  let price := latest.Close
  { symbol := symbol
    signal := "BUY"
    current_price := price
    entry_zone_low := round2 (price * 0.99)
    entry_zone_high := round2 (price * 1.01)
    target_price := round2 (price * 1.05)
    stop_loss := round2 (price * 0.97)
    signal_score := buyScore latest }

/-- The SELL `TradeSignal` built in `generate_signals`. -/
def mkSellSignal (symbol : String) (latest : Row) : TradeSignal :=
  let price := latest.Close
  { symbol := symbol
    signal := "SELL"
    current_price := price
    entry_zone_low := round2 (price * 0.99)
    entry_zone_high := round2 (price * 1.01)
    target_price := round2 (price * 0.95)
    stop_loss := round2 (price * 1.03)
    signal_score := sellScore latest }

/-- The `buys` list accumulated by the loop in `generate_signals`
before sorting/truncation: one candidate per symbol, in input-mapping
order, for each symbol whose table is non-empty and whose latest row
has BUY score `≥ 55`. -/
def buyCandidates (ind : List (String × List Row)) : List TradeSignal :=
  ind.filterMap fun p =>
    p.2.getLast?.bind fun latest =>
      if 55 ≤ buyScore latest then some (mkBuySignal p.1 latest) else none

/-- The `sells` list accumulated by the loop in `generate_signals`. -/
def sellCandidates (ind : List (String × List Row)) : List TradeSignal :=
  ind.filterMap fun p =>
    p.2.getLast?.bind fun latest =>
      if 55 ≤ sellScore latest then some (mkSellSignal p.1 latest) else none

/-- Descending order on signal score; `sorted(..., key=score,
reverse=True)` sorts stably with respect to this relation. -/
@[reducible] def byScoreDesc (a b : TradeSignal) : Prop :=
  b.signal_score ≤ a.signal_score

/-- Embeds `generate_signals`: collect candidates per direction, sort
each list by descending score (Python's `sorted` is stable, as is
`List.insertionSort`), truncate to `top_n`, and return `buys + sells`. -/
def generate_signals (ind : List (String × List Row)) (top_n : ℕ) : List TradeSignal :=
  (List.insertionSort byScoreDesc (buyCandidates ind)).take top_n
    ++ (List.insertionSort byScoreDesc (sellCandidates ind)).take top_n

/-- A synthetic enriched row meeting every BUY condition of the
specification's score-100 scenario. -/
def maxBuyRow : Row :=
  { Close := 100, RSI14 := 55, SMA20 := 3, SMA50 := 2, SMA200 := 1
    EMA20 := 0, VWAP := 0, MACD := 1, MACDSignal := 0, MACDHist := 1
    Ret1D := 0, Ret5D := 0.2, VolumeAvg20 := 1, VolumeRatio := 1.5 }

instance : IsTotal TradeSignal byScoreDesc :=
  ⟨fun a b => le_total b.signal_score a.signal_score⟩

instance : IsTrans TradeSignal byScoreDesc :=
  ⟨fun _ _ _ h1 h2 => le_trans h2 h1⟩

/-- A family of qualifying BUY rows whose score is `90 + clamp(t×100,0,10)`:
all conditions of `maxBuyRow` hold, only `Ret5D` varies. -/
def c3Row (t : ℚ) : Row := { maxBuyRow with Ret5D := t }

/-- Five-symbol input mapping for the C3 ranking scenario: scores
100, 100, 95, 90, 90 in input order. -/
def c3Ind : List (String × List Row) :=
  [("A", [c3Row (1 / 10)]), ("B", [c3Row (1 / 10)]), ("C", [c3Row (1 / 20)]),
   ("D", [c3Row 0]), ("E", [c3Row 0])]

/-- Embeds the `RiskProfile` dataclass from `risk_engine.py`. -/
structure RiskProfile where
  volatility_score : ℚ
  drawdown_risk : ℚ
  trend_stability : ℚ
  stop_loss : ℚ
  risk_level : String
deriving DecidableEq

/-- Embeds `_risk_level` from `risk_engine.py`. -/
def riskLevelOf (score : ℚ) : String :=
  if score < 0.33 then "LOW" else if score < 0.66 then "MEDIUM" else "HIGH"

/-- `Close.pct_change().dropna()`: consecutive ratios minus one
(defined only from the second row on, so the first `NaN` is dropped). -/
def pctChanges (closes : List ℚ) : List ℚ :=
  List.zipWith (fun a b => a / b - 1) closes.tail closes

/-- pandas sample variance (`ddof=1`), the square of `Series.std()`.
For fewer than two observations the float code yields `NaN`; there the
rational model returns the `0`-division junk value, a region no
verified claim depends on. -/
def sampleVar (rs : List ℚ) : ℚ :=
  ((rs.map fun r => (r - rs.sum / (rs.length : ℚ)) ^ 2).sum) / ((rs.length : ℚ) - 1)

/-- `Series.cumprod()`. -/
def cumprod (xs : List ℚ) : List ℚ := (xs.scanl (· * ·) 1).tail

/-- `Series.cummax()`. -/
def runningMax : List ℚ → List ℚ
  | [] => []
  | x :: rest => rest.scanl max x

/-- `Series.min()`; `NaN` on an empty series, junk `0` in the model
(no verified claim touches the empty case). -/
def listMin : List ℚ → ℚ
  | [] => 0
  | x :: rest => rest.foldl min x

/-- `returns.std() * np.sqrt(252)` with the abstract square root `sq`:
the standard deviation is `sq` of the sample variance. -/
def volatilityOf (sq : ℚ → ℚ) (closes : List ℚ) : ℚ :=
  sq (sampleVar (pctChanges closes)) * sq 252

/-- `abs(Close.iloc[-1] / Close.iloc[-30] - 1) if len(data) >= 30 else 0.0`
(negative positional indexing embedded as front indices). -/
def trendStrengthOf (closes : List ℚ) : ℚ :=
  if 30 ≤ closes.length then
    |closes.getD (closes.length - 1) 0 / closes.getD (closes.length - 30) 0 - 1|
  else 0

/-- `max(0.0, min(1.0, 1 - abs(volatility - trend_strength)))`. -/
def trendStabilityOf (volatility trend_strength : ℚ) : ℚ :=
  max 0 (min 1 (1 - |volatility - trend_strength|))

/-- Embeds `evaluate_risk` from `risk_engine.py` (only the `Close`
column of the enriched table is consumed). -/
def evaluate_risk (sq : ℚ → ℚ) (signal : TradeSignal) (data : List Row) : RiskProfile :=
  let closes := data.map Row.Close
  let returns := pctChanges closes
  let volatility := volatilityOf sq closes
  let cumulative := cumprod (returns.map fun r => 1 + r)
  let drawdown_abs :=
    |listMin (List.zipWith (fun c p => (c - p) / p) cumulative (runningMax cumulative))|
  let trend_strength := trendStrengthOf closes
  let trend_stability := trendStabilityOf volatility trend_strength
  let normalized_vol := min (volatility / 0.6) 1
  let normalized_dd := min (drawdown_abs / 0.35) 1
  let blended_risk := normalized_vol * 0.45 + normalized_dd * 0.45 + (1 - trend_stability) * 0.10
  { volatility_score := round4 volatility
    drawdown_risk := round4 drawdown_abs
    trend_stability := round4 trend_stability
    stop_loss := signal.stop_loss
    risk_level := riskLevelOf blended_risk }

/-- Python `dict` lookup. -/
def slookup {β : Type} : List (String × β) → String → Option β
  | [], _ => none
  | (k, v) :: rest, key => if k = key then some v else slookup rest key

/-- Python `dict` assignment: overwrite in place (keeping the original
key position) or append. -/
def dictUpsert {β : Type} (k : String) (v : β) : List (String × β) → List (String × β)
  | [] => [(k, v)]
  | (k', v') :: rest => if k' = k then (k, v) :: rest else (k', v') :: dictUpsert k v rest

/-- Embeds `batch_evaluate` from `risk_engine.py`: the dict
comprehension keyed by symbol, with later signals overwriting earlier
ones.  (`indicator_data[signal.symbol]` always exists for signals the
generator emitted; the `getD` default is never reached in the
pipeline.) -/
def batch_evaluate (sq : ℚ → ℚ) (signals : List TradeSignal)
    (ind : List (String × List Row)) : List (String × RiskProfile) :=
  signals.foldl
    (fun d sig => dictUpsert sig.symbol
      (evaluate_risk sq sig ((slookup ind sig.symbol).getD [])) d) []

/-- Embeds the `ProbabilityEstimate` dataclass. -/
structure ProbabilityEstimate where
  probability : ℚ
  confidence_note : String
deriving DecidableEq

/-- The `{"LOW": 0.85, "MEDIUM": 0.65, "HIGH": 0.45}` dict. -/
def riskComponentTable : List (String × ℚ) :=
  [("LOW", 0.85), ("MEDIUM", 0.65), ("HIGH", 0.45)]

/-- Embeds `estimate_probability` from `probability_engine.py`; `none`
models the `KeyError` Python raises on a risk level outside the dict
(unreachable for profiles produced by the risk engine). -/
def estimate_probability (signal : TradeSignal) (risk : RiskProfile) :
    Option ProbabilityEstimate :=
  (slookup riskComponentTable risk.risk_level).map fun risk_component =>
    let signal_component := min (signal.signal_score / 100) 1
    let stability_component := risk.trend_stability
    let score := signal_component * 0.55 + risk_component * 0.30 + stability_component * 0.15
    let probability := round2 (score * 100)
    { probability := probability
      confidence_note :=
        if 70 ≤ probability then "Strong trend continuation"
        else if 55 ≤ probability then "Moderate edge with controlled risk"
        else "Weak setup; position sizing caution" }

/-- Signals for the C6 monotonicity witness: equal except for score. -/
def c6Sig1 : TradeSignal :=
  { symbol := "X", signal := "BUY", current_price := 100, entry_zone_low := 99
    entry_zone_high := 101, target_price := 105, stop_loss := 97, signal_score := 50 }

/-- Higher-scoring variant of `c6Sig1`. -/
def c6Sig2 : TradeSignal := { c6Sig1 with signal_score := 60 }

/-- Risk profile for the C6 witness. -/
def c6Risk : RiskProfile :=
  { volatility_score := 0, drawdown_risk := 0, trend_stability := 1
    stop_loss := 97, risk_level := "LOW" }

/-- Probability estimate for `c6Sig1` against `c6Risk`. -/
def c6P1 : ProbabilityEstimate :=
  { probability := 68, confidence_note := "Moderate edge with controlled risk" }

/-- Probability estimate for `c6Sig2` against `c6Risk`. -/
def c6P2 : ProbabilityEstimate :=
  { probability := 73.5, confidence_note := "Strong trend continuation" }

/-- A raw per-symbol table as a pandas-style mapping from column name
to column values (one shared positional index; tables are assumed
rectangular as every real `DataFrame` is). -/
abbrev RawTable := List (String × List ℚ)

/-- pandas column access: `KeyError` when the column is missing. -/
def colOf (t : RawTable) (name : String) : Except String (List ℚ) :=
  match slookup t name with
  | some c => .ok c
  | none => .error ("KeyError: " ++ name)

/-- `ewm(..., adjust=False).mean()` recursion underlying EMA-style
indicators: `y₀ = x₀`, `yᵢ = a·xᵢ + (1−a)·yᵢ₋₁`. -/
def ewmVals (a : ℚ) : List ℚ → List ℚ
  | [] => []
  | x :: rest => rest.scanl (fun y xi => a * xi + (1 - a) * y) x

/-- Simple moving average / rolling mean with window `w`: `none`
during the `w−1`-bar warm-up. -/
def smaList (w : ℕ) (xs : List ℚ) : List (Option ℚ) :=
  (List.range xs.length).map fun i =>
    if w ≤ i + 1 then some (((xs.take (i + 1)).drop (i + 1 - w)).sum / (w : ℚ)) else none

/-- Modelled from the spec: exponential moving average with window `w`
(the `ta` library is external to the repository); span-`w` `ewm` with
`adjust=False` and `min_periods=w`. -/
def emaList (w : ℕ) (xs : List ℚ) : List (Option ℚ) :=
  (List.range xs.length).map fun i =>
    if w ≤ i + 1 then some ((ewmVals (2 / ((w : ℚ) + 1)) xs).getD i 0) else none

/-- `Series.pct_change(k)`: `none` for the first `k` positions.
(A zero prior close yields float `inf`, not `NaN`; the rational
junk value is likewise non-null, and no claim touches that case.) -/
def pctChangeList (k : ℕ) (xs : List ℚ) : List (Option ℚ) :=
  (List.range xs.length).map fun i =>
    if k ≤ i ∧ 1 ≤ k then some (xs.getD i 0 / xs.getD (i - k) 0 - 1) else none

/-- `Series.diff()` dropped to the second element on:
`d ⟨i⟩ = x ⟨i+1⟩ − x ⟨i⟩`. -/
def diffList (xs : List ℚ) : List ℚ := List.zipWith (· - ·) xs.tail xs

/-- Modelled from the spec: RSI with window `w`, close-to-close
average gain/loss smoothing (Wilder `ewm` with `alpha = 1/w`,
`adjust=False`, `min_periods=w`; the `ta` library is external).  The
float code returns 100 at zero average loss via `inf`; the rational
division convention yields a different junk value there, a case no
claim depends on. -/
def rsiList (w : ℕ) (xs : List ℚ) : List (Option ℚ) :=
  let gains := (diffList xs).map fun d => max d 0
  let losses := (diffList xs).map fun d => max (-d) 0
  let avgG := ewmVals (1 / (w : ℚ)) gains
  let avgL := ewmVals (1 / (w : ℚ)) losses
  (List.range xs.length).map fun i =>
    if w ≤ i then
      some (100 - 100 / (1 + avgG.getD (i - 1) 0 / avgL.getD (i - 1) 0))
    else none

/-- `Series.cumsum()`. -/
def cumsum (xs : List ℚ) : List ℚ := (xs.scanl (· + ·) 0).tail

/-- `volume.replace(0, nan).cumsum()`: `none` at zero-volume rows,
elsewhere the running sum of the non-zero volumes so far. -/
def cumsumSkipZero (vs : List ℚ) : List (Option ℚ) :=
  (List.range vs.length).map fun i =>
    if vs.getD i 0 = 0 then none
    else some (((vs.take (i + 1)).filter fun v => decide (v ≠ 0)).sum)

/-- Embeds `_calc_vwap`: cumulative typical-price value over
cumulative volume, undefined at zero-volume rows. -/
def vwapList (high low close volume : List ℚ) : List (Option ℚ) :=
  let typical :=
    List.zipWith (fun hl c => (hl.1 + hl.2 + c) / 3) (List.zipWith Prod.mk high low) close
  let cv := cumsum (List.zipWith (· * ·) typical volume)
  (List.range close.length).map fun i =>
    ((cumsumSkipZero volume).getD i none).map fun cvol => cv.getD i 0 / cvol

/-- Modelled from the spec: MACD line values, `EMA12 − EMA26` of the
close (underlying `adjust=False` recursions from the first bar). -/
def macdValsOf (xs : List ℚ) : List ℚ :=
  List.zipWith (· - ·) (ewmVals (2 / 13) xs) (ewmVals (2 / 27) xs)

/-- MACD line with the slow-window warm-up masked. -/
def macdList (xs : List ℚ) : List (Option ℚ) :=
  (List.range xs.length).map fun i =>
    if 26 ≤ i + 1 then some ((macdValsOf xs).getD i 0) else none

/-- MACD signal line: span-9 `ewm` of the defined part of the MACD
line, masked until nine MACD observations exist. -/
def macdSignalList (xs : List ℚ) : List (Option ℚ) :=
  let sigVals := ewmVals (2 / 10) ((macdValsOf xs).drop 25)
  (List.range xs.length).map fun i =>
    if 34 ≤ i + 1 then some (sigVals.getD (i - 25) 0) else none

/-- MACD histogram: line minus signal where both are defined. -/
def macdHistList (xs : List ℚ) : List (Option ℚ) :=
  List.zipWith (fun a b => a.bind fun x => b.map fun y => x - y)
    (macdList xs) (macdSignalList xs)

/-- `Volume / VolumeAvg20`: defined exactly where the rolling mean is. -/
def volRatioList (volume : List ℚ) : List (Option ℚ) :=
  (List.range volume.length).map fun i =>
    ((smaList 20 volume).getD i none).map fun m => volume.getD i 0 / m

/-- One row of the enriched `DataFrame` before `dropna`: the consumed
original columns (always non-null reals) and the derived indicator
columns, each possibly `NaN` (`none`) during warm-up. -/
structure ERow where
  Close : ℚ
  High : ℚ
  Low : ℚ
  Volume : ℚ
  RSI14 : Option ℚ
  SMA20 : Option ℚ
  SMA50 : Option ℚ
  SMA200 : Option ℚ
  EMA20 : Option ℚ
  VWAP : Option ℚ
  MACD : Option ℚ
  MACDSignal : Option ℚ
  MACDHist : Option ℚ
  Ret1D : Option ℚ
  Ret5D : Option ℚ
  VolumeAvg20 : Option ℚ
  VolumeRatio : Option ℚ
deriving DecidableEq

/-- Positional assembly of the enriched frame from its columns. -/
def assembleRows (close high low volume : List ℚ) : List ERow :=
  (List.range close.length).map fun i =>
    { Close := close.getD i 0
      High := high.getD i 0
      Low := low.getD i 0
      Volume := volume.getD i 0
      RSI14 := (rsiList 14 close).getD i none
      SMA20 := (smaList 20 close).getD i none
      SMA50 := (smaList 50 close).getD i none
      SMA200 := (smaList 200 close).getD i none
      EMA20 := (emaList 20 close).getD i none
      VWAP := (vwapList high low close volume).getD i none
      MACD := (macdList close).getD i none
      MACDSignal := (macdSignalList close).getD i none
      MACDHist := (macdHistList close).getD i none
      Ret1D := (pctChangeList 1 close).getD i none
      Ret5D := (pctChangeList 5 close).getD i none
      VolumeAvg20 := (smaList 20 volume).getD i none
      VolumeRatio := (volRatioList volume).getD i none }

/-- The `dropna()` row predicate: all derived cells non-null (the
original columns are non-null reals by construction). -/
def allDerivedSome (r : ERow) : Bool :=
  r.RSI14.isSome && r.SMA20.isSome && r.SMA50.isSome && r.SMA200.isSome &&
    r.EMA20.isSome && r.VWAP.isSome && r.MACD.isSome && r.MACDSignal.isSome &&
    r.MACDHist.isSome && r.Ret1D.isSome && r.Ret5D.isSome &&
    r.VolumeAvg20.isSome && r.VolumeRatio.isSome

/-- Per-symbol body of `enrich_with_indicators`: compute every derived
column and `dropna()`; fails (the caught exception) on a missing
column, in the code's access order. -/
def enrichSymbol (t : RawTable) : Except String (List ERow) := do
  let close ← colOf t "Close"
  let high ← colOf t "High"
  let low ← colOf t "Low"
  let volume ← colOf t "Volume"
  pure ((assembleRows close high low volume).filter allDerivedSome)

/-- Embeds `enrich_with_indicators`: per-symbol computation with the
`try/except` that logs and skips a failing symbol. -/
def enrich_with_indicators (ph : List (String × RawTable)) : List (String × List ERow) :=
  ph.filterMap fun p => (enrichSymbol p.2).toOption.map fun rows => (p.1, rows)

/-- Projection of a surviving (`dropna`-filtered) enriched row to the
plain row consumed by the signal stage; lossless on survivors since
every derived cell is `some` there. -/
def toRow (r : ERow) : Row :=
  { Close := r.Close
    RSI14 := r.RSI14.getD 0
    SMA20 := r.SMA20.getD 0
    SMA50 := r.SMA50.getD 0
    SMA200 := r.SMA200.getD 0
    EMA20 := r.EMA20.getD 0
    VWAP := r.VWAP.getD 0
    MACD := r.MACD.getD 0
    MACDSignal := r.MACDSignal.getD 0
    MACDHist := r.MACDHist.getD 0
    Ret1D := r.Ret1D.getD 0
    Ret5D := r.Ret5D.getD 0
    VolumeAvg20 := r.VolumeAvg20.getD 0
    VolumeRatio := r.VolumeRatio.getD 0 }

/-- A raw table with the four consumed columns present but empty. -/
def emptyColsTable : RawTable :=
  [("Close", []), ("High", []), ("Low", []), ("Volume", [])]

/-- A raw table missing its `Close` column. -/
def noCloseTable : RawTable := [("High", []), ("Low", []), ("Volume", [])]

/-- One row of the report `DataFrame` (`build_report_dataframe`); the
textual entry-zone and reason cells are presentation-only and not
modelled. -/
structure ReportRow where
  stock_name : String
  signal : String
  current_price : ℚ
  target_price : ℚ
  stop_loss : ℚ
  risk_level : String
  probability : ℚ
deriving DecidableEq

/-- `sort_values(by=[Signal, Probability], ascending=[True, False])`:
signal text ascending, then probability descending (stable). -/
@[reducible] def reportOrder (a b : ReportRow) : Prop :=
  a.signal < b.signal ∨ (a.signal = b.signal ∧ b.probability ≤ a.probability)

/-- The probabilities dict comprehension in `run_daily_analysis`
(`main.py`): keyed by symbol, later signals overwriting earlier ones;
an absent key or unknown risk level would raise (`Except.error`). -/
def buildProbabilities (signals : List TradeSignal)
    (risks : List (String × RiskProfile)) :
    Except String (List (String × ProbabilityEstimate)) :=
  signals.foldlM
    (fun d sig =>
      match slookup risks sig.symbol with
      | none => .error ("KeyError: " ++ sig.symbol)
      | some risk =>
        match estimate_probability sig risk with
        | none => .error ("KeyError: " ++ risk.risk_level)
        | some p => .ok (dictUpsert sig.symbol p d)) []

/-- Embeds `build_report_dataframe`: one row per signal, stop-loss and
risk level from the risk dict, probability from the probability dict
(both keyed by symbol only), then the non-empty frame is sorted by
signal ascending / probability descending. -/
def build_report (signals : List TradeSignal)
    (risks : List (String × RiskProfile))
    (probs : List (String × ProbabilityEstimate)) :
    Except String (List ReportRow) := do
  let rows ← signals.mapM fun sig =>
    match slookup risks sig.symbol, slookup probs sig.symbol with
    | some risk, some prob => Except.ok
        { stock_name := sig.symbol
          signal := sig.signal
          current_price := round2 sig.current_price
          target_price := sig.target_price
          stop_loss := risk.stop_loss
          risk_level := risk.risk_level
          probability := prob.probability }
    | _, _ => Except.error ("KeyError: " ++ sig.symbol)
  pure (if rows.isEmpty then rows else List.insertionSort reportOrder rows)

/-- The per-symbol admission test of `collect_market_data`: the fetch
succeeded, the standard OHLCV columns are present (the latest/previous
row projection reads all five), and at least 60 valid rows exist. -/
def passesCollect (t : RawTable) : Bool :=
  match slookup t "Close", slookup t "Open", slookup t "High",
      slookup t "Low", slookup t "Volume" with
  | some close, some _, some _, some _, some _ => decide (60 ≤ close.length)
  | _, _, _, _, _ => false

/-- Embeds `collect_market_data` as a function of the external fetch
results (`none` models a raised/caught download failure): raises when
the universe is empty, keeps symbols passing the per-symbol test, and
raises when none does (the market table and `price_history` are empty
together). -/
def collect_market_data (univ : List String)
    (fetch : String → Option RawTable) :
    Except String (List (String × RawTable)) :=
  if univ = [] then .error "No symbols available for analysis"
  else
    let ph := univ.filterMap fun s =>
      (fetch s).bind fun t => if passesCollect t then some (s, t) else none
    if ph = [] then .error "Market data collection failed for all symbols"
    else .ok ph

/-- Embeds `run_daily_analysis` (`main.py`): fetch → enrich → signals
→ risk → probability → report.  The returned value models the report
contents handed to console printing and Excel export; `Except.error`
models an uncaught exception aborting the run. -/
def run_daily_analysis (sq : ℚ → ℚ) (univ : List String)
    (fetch : String → Option RawTable) : Except String (List ReportRow) := do
  let ph ← collect_market_data univ fetch
  let ind := (enrich_with_indicators ph).map fun p => (p.1, p.2.map toRow)
  let signals := generate_signals ind 10
  let risks := batch_evaluate sq signals ind
  let probs ← buildProbabilities signals risks
  build_report signals risks probs

/-- A fetched table of 60 constant bars: enough history to pass
collection, far below the 200-bar SMA warm-up. -/
def c9Table : RawTable :=
  [("Close", List.replicate 60 100), ("Open", List.replicate 60 100),
   ("High", List.replicate 60 100), ("Low", List.replicate 60 100),
   ("Volume", List.replicate 60 1000)]

/-- An enriched row on which both the BUY and the SELL score are at
the admission threshold: BUY 20+20+15 = 55 and SELL
15+20+15+10 = 60 hold simultaneously (the volume-spike condition
feeds both sides when the one-day return is negative). -/
def c10BaseRow : Row :=
  { Close := 100, RSI14 := 55, SMA20 := 3, SMA50 := 2, SMA200 := 4
    EMA20 := 0, VWAP := 0, MACD := 0, MACDSignal := 1, MACDHist := -1
    Ret1D := -1 / 100, Ret5D := -1 / 10, VolumeAvg20 := 1, VolumeRatio := 1.5 }

/-- One-symbol enriched mapping whose symbol `X` earns both signals. -/
def c10Ind : List (String × List Row) :=
  [("X", [c10BaseRow, c10BaseRow, c10BaseRow])]

/-- The risk profile the dict keeps for `X`: computed from the SELL
signal (processed last), so it carries the SELL stop-loss `103`. -/
def c10Risk : RiskProfile :=
  { volatility_score := 0, drawdown_risk := 0, trend_stability := 1
    stop_loss := 103, risk_level := "LOW" }

/-- The probability estimate the dict keeps for `X`: computed from the
SELL signal's score 60 (`round(100·(0.55·0.6+0.30·0.85+0.15·1),2)`). -/
def c10Prob : ProbabilityEstimate :=
  { probability := 73.5, confidence_note := "Strong trend continuation" }

/-- The BUY report row for `X`: SELL's stop-loss and probability. -/
def c10BuyReport : ReportRow :=
  { stock_name := "X", signal := "BUY", current_price := 100
    target_price := 105, stop_loss := 103, risk_level := "LOW"
    probability := 73.5 }

/-- The SELL report row for `X`. -/
def c10SellReport : ReportRow :=
  { stock_name := "X", signal := "SELL", current_price := 100
    target_price := 95, stop_loss := 103, risk_level := "LOW"
    probability := 73.5 }

theorem clamp_min_max (x : ℚ) : min (max x 0) 10 = clampQ x 0 10 := by
  unfold clampQ
  rcases le_total x 0 with h | h <;> rcases le_total x 10 with h2 | h2 <;>
    simp only [min_def, max_def] <;> split_ifs <;> linarith

/-- C1: the BUY score is the additive sum
`20·[SMA20>SMA50] + 15·[SMA50>SMA200] + 20·[RSI14∈[40,70]] +
20·[MACD>MACDSignal] + 15·[VolumeRatio>1.2] + clamp(Ret5D×100,0,10)`,
hence lies in `[0, 100]`; a row with `SMA20>SMA50>SMA200`, `RSI14=55`,
`MACD>MACDSignal`, `VolumeRatio=1.5`, `Ret5D=0.2` scores exactly 100. -/
theorem buy_score_additive_c1 (r : Row) :
    buyScore r =
      20 * (if r.SMA20 > r.SMA50 then (1:ℚ) else 0)
        + 15 * (if r.SMA50 > r.SMA200 then (1:ℚ) else 0)
        + 20 * (if 40 ≤ r.RSI14 ∧ r.RSI14 ≤ 70 then (1:ℚ) else 0)
        + 20 * (if r.MACD > r.MACDSignal then (1:ℚ) else 0)
        + 15 * (if r.VolumeRatio > 1.2 then (1:ℚ) else 0)
        + clampQ (r.Ret5D * 100) 0 10
    ∧ 0 ≤ buyScore r ∧ buyScore r ≤ 100
    ∧ (r.SMA20 > r.SMA50 → r.SMA50 > r.SMA200 → r.RSI14 = 55 →
        r.MACD > r.MACDSignal → r.VolumeRatio = 1.5 → r.Ret5D = 0.2 →
        buyScore r = 100) := by
  have hc0 : 0 ≤ min (max (r.Ret5D * 100) 0) 10 :=
    le_min (le_max_right _ 0) (by norm_num)
  have hc1 : min (max (r.Ret5D * 100) 0) 10 ≤ 10 := min_le_right _ _
  refine ⟨?_, ?_, ?_, ?_⟩
  · rw [buyScore, clamp_min_max]
    split_ifs <;> ring
  · rw [buyScore]
    split_ifs <;> linarith
  · rw [buyScore]
    split_ifs <;> linarith
  · intro h1 h2 h3 h4 h5 h6
    rw [buyScore, if_pos h1, if_pos h2, if_pos h4,
      if_pos (by rw [h3]; norm_num : 40 ≤ r.RSI14 ∧ r.RSI14 ≤ 70),
      if_pos (by rw [h5]; norm_num : r.VolumeRatio > 1.2), h6]
    norm_num

/-- Witness for C1 at the specification's synthetic score-100 row. -/
theorem buy_score_additive_c1_witness : buyScore maxBuyRow = 100 :=
  (buy_score_additive_c1 maxBuyRow).2.2.2 (by norm_num [maxBuyRow])
    (by norm_num [maxBuyRow]) (by norm_num [maxBuyRow]) (by norm_num [maxBuyRow])
    (by norm_num [maxBuyRow]) (by norm_num [maxBuyRow])

theorem assoc_nodup_val {α β : Type} {l : List (α × β)}
    (h : (l.map Prod.fst).Nodup) {a : α} {b c : β}
    (h1 : (a, b) ∈ l) (h2 : (a, c) ∈ l) : b = c := by
  induction l with
  | nil => cases h1
  | cons p t ih =>
    rw [List.map_cons, List.nodup_cons] at h
    rcases List.mem_cons.mp h1 with e1 | m1 <;> rcases List.mem_cons.mp h2 with e2 | m2
    · rw [← e1] at e2
      exact (congrArg Prod.snd e2).symm
    · refine absurd (List.mem_map.mpr ⟨(a, c), m2, ?_⟩) h.1
      rw [← e1]
    · refine absurd (List.mem_map.mpr ⟨(a, b), m1, ?_⟩) h.1
      rw [← e2]
    · exact ih h.2 m1 m2

/-- C2: for a symbol with a non-empty enriched table, a candidate of a
direction is admitted (emitted into that direction's list, before
ranking/truncation) iff that direction's score for the latest row is
at least 55 — so exactly 55.0 qualifies and anything below does not. -/
theorem signal_threshold_c2 (ind : List (String × List Row)) (s : String)
    (df : List Row) (latest : Row) (hnd : (ind.map Prod.fst).Nodup)
    (hmem : (s, df) ∈ ind) (hlast : df.getLast? = some latest) :
    ((∃ sig ∈ buyCandidates ind, sig.symbol = s) ↔ 55 ≤ buyScore latest)
    ∧ ((∃ sig ∈ sellCandidates ind, sig.symbol = s) ↔ 55 ≤ sellScore latest) := by
  constructor
  · constructor
    · rintro ⟨sig, hsig, hsym⟩
      obtain ⟨⟨s', df'⟩, hmem', heq⟩ := List.mem_filterMap.mp hsig
      dsimp only at heq
      cases hl' : df'.getLast? with
      | none => rw [hl'] at heq; cases heq
      | some latest' =>
        rw [hl', Option.some_bind] at heq
        by_cases hsc : 55 ≤ buyScore latest'
        · rw [if_pos hsc] at heq
          have hsigeq := Option.some.inj heq
          have hs' : s' = s := by rw [← hsigeq] at hsym; exact hsym
          subst hs'
          have hdf : df' = df := assoc_nodup_val hnd hmem' hmem
          rw [hdf, hlast] at hl'
          rw [show latest' = latest from (Option.some.inj hl').symm] at hsc
          exact hsc
        · rw [if_neg hsc] at heq; cases heq
    · intro hsc
      refine ⟨mkBuySignal s latest, List.mem_filterMap.mpr ⟨(s, df), hmem, ?_⟩, rfl⟩
      dsimp only
      rw [hlast, Option.some_bind, if_pos hsc]
  · constructor
    · rintro ⟨sig, hsig, hsym⟩
      obtain ⟨⟨s', df'⟩, hmem', heq⟩ := List.mem_filterMap.mp hsig
      dsimp only at heq
      cases hl' : df'.getLast? with
      | none => rw [hl'] at heq; cases heq
      | some latest' =>
        rw [hl', Option.some_bind] at heq
        by_cases hsc : 55 ≤ sellScore latest'
        · rw [if_pos hsc] at heq
          have hsigeq := Option.some.inj heq
          have hs' : s' = s := by rw [← hsigeq] at hsym; exact hsym
          subst hs'
          have hdf : df' = df := assoc_nodup_val hnd hmem' hmem
          rw [hdf, hlast] at hl'
          rw [show latest' = latest from (Option.some.inj hl').symm] at hsc
          exact hsc
        · rw [if_neg hsc] at heq; cases heq
    · intro hsc
      refine ⟨mkSellSignal s latest, List.mem_filterMap.mpr ⟨(s, df), hmem, ?_⟩, rfl⟩
      dsimp only
      rw [hlast, Option.some_bind, if_pos hsc]

/-- Witness for C2: a one-symbol mapping whose latest-row BUY score is
exactly at the inclusive threshold region (score 100 ≥ 55). -/
theorem signal_threshold_c2_witness :
    ∃ sig ∈ buyCandidates [("X", [maxBuyRow])], sig.symbol = "X" :=
  ((signal_threshold_c2 [("X", [maxBuyRow])] "X" [maxBuyRow] maxBuyRow
    (by decide) (by simp) rfl).1).mpr (by norm_num [buyScore, maxBuyRow])

theorem filter_orderedInsert {α : Type} (r : α → α → Prop) [DecidableRel r]
    (p : α → Bool) (a : α) (l : List α)
    (h : ∀ b, p b = true → p a = true → r a b) :
    (l.orderedInsert r a).filter p =
      if p a then a :: l.filter p else l.filter p := by
  induction l with
  | nil =>
    cases hpa : p a <;> simp [List.orderedInsert, List.filter, hpa]
  | cons b t ih =>
    simp only [List.orderedInsert]
    by_cases hr : r a b
    · rw [if_pos hr, List.filter_cons]
    · rw [if_neg hr, List.filter_cons, ih]
      by_cases hpa : p a
      · have hpb : ¬p b = true := fun hpb => hr (h b hpb hpa)
        simp [hpa, hpb, List.filter_cons]
      · simp [hpa, List.filter_cons]

theorem filter_insertionSort_score (q : ℚ) (l : List TradeSignal) :
    (List.insertionSort byScoreDesc l).filter (fun x => decide (x.signal_score = q)) =
      l.filter (fun x => decide (x.signal_score = q)) := by
  induction l with
  | nil => rfl
  | cons a t ih =>
    simp only [List.insertionSort]
    rw [filter_orderedInsert byScoreDesc _ a _
      (fun b hb ha => le_of_eq (by
        rw [of_decide_eq_true hb, of_decide_eq_true ha])),
      ih, List.filter_cons]

/-- C3: emitted candidates of each direction are stably sorted by
descending score and truncated to `top_n`; equal scores keep input
order (for each score value `q`, the emitted sub-list of score-`q`
candidates is a sublist of the admission-order candidate list); with
`top_n = 2` and five qualifying BUY candidates of scores
100,100,95,90,90, exactly the top two (in input order) are returned. -/
theorem ranking_c3 (ind : List (String × List Row)) (top_n : ℕ) (q : ℚ) :
    generate_signals ind top_n =
      (List.insertionSort byScoreDesc (buyCandidates ind)).take top_n
        ++ (List.insertionSort byScoreDesc (sellCandidates ind)).take top_n
    ∧ List.Sorted byScoreDesc
        ((List.insertionSort byScoreDesc (buyCandidates ind)).take top_n)
    ∧ ((List.insertionSort byScoreDesc (buyCandidates ind)).take top_n).length ≤ top_n
    ∧ List.Sublist
        (((List.insertionSort byScoreDesc (buyCandidates ind)).take top_n).filter
          (fun x => decide (x.signal_score = q)))
        ((buyCandidates ind).filter (fun x => decide (x.signal_score = q)))
    ∧ List.Sorted byScoreDesc
        ((List.insertionSort byScoreDesc (sellCandidates ind)).take top_n)
    ∧ ((List.insertionSort byScoreDesc (sellCandidates ind)).take top_n).length ≤ top_n
    ∧ List.Sublist
        (((List.insertionSort byScoreDesc (sellCandidates ind)).take top_n).filter
          (fun x => decide (x.signal_score = q)))
        ((sellCandidates ind).filter (fun x => decide (x.signal_score = q)))
    ∧ generate_signals c3Ind 2 =
        [mkBuySignal "A" (c3Row (1 / 10)), mkBuySignal "B" (c3Row (1 / 10))] := by
  refine ⟨rfl, ?_, ?_, ?_, ?_, ?_, ?_, ?_⟩
  · exact (List.sorted_insertionSort byScoreDesc _).sublist (List.take_sublist _ _)
  · exact List.length_take_le _ _
  · rw [← filter_insertionSort_score q (buyCandidates ind)]
    exact List.Sublist.filter _ (List.take_sublist _ _)
  · exact (List.sorted_insertionSort byScoreDesc _).sublist (List.take_sublist _ _)
  · exact List.length_take_le _ _
  · rw [← filter_insertionSort_score q (sellCandidates ind)]
    exact List.Sublist.filter _ (List.take_sublist _ _)
  · have hb1 : buyScore (c3Row (1 / 10)) = 100 := by
      norm_num [buyScore, c3Row, maxBuyRow, min_def, max_def]
    have hb2 : buyScore (c3Row (1 / 20)) = 95 := by
      norm_num [buyScore, c3Row, maxBuyRow, min_def, max_def]
    have hb3 : buyScore (c3Row 0) = 90 := by
      norm_num [buyScore, c3Row, maxBuyRow, min_def, max_def]
    have hs1 : sellScore (c3Row (1 / 10)) = 0 := by
      norm_num [sellScore, c3Row, maxBuyRow, min_def, max_def, abs]
    have hs2 : sellScore (c3Row (1 / 20)) = 0 := by
      norm_num [sellScore, c3Row, maxBuyRow, min_def, max_def, abs]
    have hs3 : sellScore (c3Row 0) = 0 := by
      norm_num [sellScore, c3Row, maxBuyRow, min_def, max_def, abs]
    have hbc : buyCandidates c3Ind =
        [mkBuySignal "A" (c3Row (1 / 10)), mkBuySignal "B" (c3Row (1 / 10)),
         mkBuySignal "C" (c3Row (1 / 20)), mkBuySignal "D" (c3Row 0),
         mkBuySignal "E" (c3Row 0)] := by
      simp only [buyCandidates, c3Ind, List.filterMap_cons, List.filterMap_nil,
        List.getLast?_singleton, Option.some_bind, hb1, hb2, hb3]
      norm_num
    have hsc : sellCandidates c3Ind = [] := by
      simp only [sellCandidates, c3Ind, List.filterMap_cons, List.filterMap_nil,
        List.getLast?_singleton, Option.some_bind, hs1, hs2, hs3]
      norm_num
    have pA : (mkBuySignal "A" (c3Row (1 / 10))).signal_score = 100 := by
      simp only [mkBuySignal]
      exact hb1
    have pB : (mkBuySignal "B" (c3Row (1 / 10))).signal_score = 100 := by
      simp only [mkBuySignal]
      exact hb1
    have pC : (mkBuySignal "C" (c3Row (1 / 20))).signal_score = 95 := by
      simp only [mkBuySignal]
      exact hb2
    have pD : (mkBuySignal "D" (c3Row 0)).signal_score = 90 := by
      simp only [mkBuySignal]
      exact hb3
    have pE : (mkBuySignal "E" (c3Row 0)).signal_score = 90 := by
      simp only [mkBuySignal]
      exact hb3
    rw [generate_signals, hbc, hsc]
    simp only [List.insertionSort, List.orderedInsert, byScoreDesc,
      pA, pB, pC, pD, pE]
    norm_num

theorem getD_reverse {l : List ℚ} {i : ℕ} (h : i < l.length) :
    l.reverse.getD i 0 = l.getD (l.length - 1 - i) 0 := by
  rw [List.getD_eq_getElem?_getD, List.getD_eq_getElem?_getD,
    List.getElem?_reverse h]

/-- C4: in the risk engine, trend strength is
`|Close[-1]/Close[-30] − 1|` (the last close over the close 30
positions from the end) when at least 30 rows exist and `0` otherwise,
and the stored trend stability is
`clamp(1 − |volatility − trend_strength|, 0, 1)` (rounded to 4
decimals as the profile records it). -/
theorem risk_trend_c4 (sq : ℚ → ℚ) (sig : TradeSignal) (data : List Row)
    (closes : List ℚ) :
    (trendStrengthOf closes =
      if 30 ≤ closes.length then
        |closes.reverse.getD 0 0 / closes.reverse.getD 29 0 - 1|
      else 0)
    ∧ (evaluate_risk sq sig data).trend_stability =
        round4 (clampQ
          (1 - |volatilityOf sq (data.map Row.Close) -
            trendStrengthOf (data.map Row.Close)|) 0 1) := by
  constructor
  · rw [trendStrengthOf]
    split_ifs with h
    · have e1 : closes.length - 1 - 0 = closes.length - 1 := by omega
      have e2 : closes.length - 1 - 29 = closes.length - 30 := by omega
      rw [getD_reverse (by omega), getD_reverse (by omega), e1, e2]
    · rfl
  · rw [evaluate_risk]
    dsimp only
    rw [trendStabilityOf, clampQ]

/-- C5: the risk level is `LOW` exactly below 0.33, `MEDIUM` exactly
on `[0.33, 0.66)`, `HIGH` exactly at or above 0.66; in particular a
blended score of exactly 0.33 is `MEDIUM` and exactly 0.66 is `HIGH`. -/
theorem risk_level_bins_c5 (s : ℚ) :
    (riskLevelOf s = "LOW" ↔ s < 0.33)
    ∧ (riskLevelOf s = "MEDIUM" ↔ 0.33 ≤ s ∧ s < 0.66)
    ∧ (riskLevelOf s = "HIGH" ↔ 0.66 ≤ s)
    ∧ riskLevelOf 0.33 = "MEDIUM" ∧ riskLevelOf 0.66 = "HIGH" := by
  refine ⟨?_, ?_, ?_, ?_, ?_⟩
  · rw [riskLevelOf]
    split_ifs with h1 h2
    · exact iff_of_true rfl h1
    · exact iff_of_false (by decide) h1
    · exact iff_of_false (by decide) h1
  · rw [riskLevelOf]
    split_ifs with h1 h2
    · exact iff_of_false (by decide) fun hc => absurd h1 (not_lt.mpr hc.1)
    · exact iff_of_true rfl ⟨not_lt.mp h1, h2⟩
    · exact iff_of_false (by decide) fun hc => absurd hc.2 h2
  · rw [riskLevelOf]
    split_ifs with h1 h2
    · refine iff_of_false (by decide) ?_
      intro hc
      linarith
    · refine iff_of_false (by decide) ?_
      intro hc
      linarith
    · exact iff_of_true rfl (not_lt.mp h2)
  · rw [riskLevelOf]
    norm_num
  · rw [riskLevelOf]
    norm_num

theorem roundHE_intCast (n : ℤ) : roundHE (n : ℚ) = n := by
  rw [roundHE]
  have hf : Int.fract ((n : ℚ)) = 0 := Int.fract_intCast n
  rw [if_neg (by rw [hf]; norm_num), round_intCast]

theorem round2_of_cast (q : ℚ) (n : ℤ) (h : q * 100 = (n : ℚ)) :
    round2 q = (n : ℚ) / 100 := by
  rw [round2, h, roundHE_intCast]

theorem floor_le_roundHE (q : ℚ) : ⌊q⌋ ≤ roundHE q := by
  rw [roundHE]
  split_ifs
  · exact le_refl _
  · rw [round_eq]
    exact Int.floor_mono (by linarith)

theorem roundHE_mono {q r : ℚ} (h : q ≤ r) : roundHE q ≤ roundHE r := by
  by_cases hq : Int.fract q = 1 / 2 ∧ Even ⌊q⌋ <;>
    by_cases hr : Int.fract r = 1 / 2 ∧ Even ⌊r⌋
  · rw [roundHE, if_pos hq, roundHE, if_pos hr]
    exact Int.floor_mono h
  · rw [roundHE, if_pos hq]
    exact le_trans (Int.floor_mono h) (floor_le_roundHE r)
  · rw [roundHE, if_neg hq, roundHE, if_pos hr, round_eq]
    rcases eq_or_lt_of_le h with heq | hlt
    · exact absurd (heq ▸ hr) hq
    · have hrr : r = (⌊r⌋ : ℚ) + 1 / 2 := by
        have h1 := hr.1
        rw [Int.fract] at h1
        linarith
      have h2 : q + 1 / 2 < ((⌊r⌋ + 1 : ℤ) : ℚ) := by
        push_cast
        rw [hrr] at hlt
        linarith
      have h3 := Int.floor_lt.mpr h2
      omega
  · rw [roundHE, if_neg hq, roundHE, if_neg hr, round_eq, round_eq]
    exact Int.floor_mono (by linarith)

theorem round2_mono {q r : ℚ} (h : q ≤ r) : round2 q ≤ round2 r := by
  rw [round2, round2]
  have := roundHE_mono (by linarith : q * 100 ≤ r * 100)
  have hc : ((roundHE (q * 100) : ℚ)) ≤ ((roundHE (r * 100) : ℚ)) := by
    exact_mod_cast this
  linarith

/-- C6: holding risk level and trend stability fixed, the estimated
probability is monotonically non-decreasing in the signal score. -/
theorem prob_mono_c6 (sig1 sig2 : TradeSignal) (r1 r2 : RiskProfile)
    (p1 p2 : ProbabilityEstimate)
    (hL : r1.risk_level = r2.risk_level)
    (hT : r1.trend_stability = r2.trend_stability)
    (hs : sig1.signal_score ≤ sig2.signal_score)
    (h1 : estimate_probability sig1 r1 = some p1)
    (h2 : estimate_probability sig2 r2 = some p2) :
    p1.probability ≤ p2.probability := by
  rw [estimate_probability, hL] at h1
  rw [estimate_probability] at h2
  cases hc : slookup riskComponentTable r2.risk_level with
  | none => rw [hc] at h1; cases h1
  | some rc =>
    rw [hc, Option.map_some'] at h1 h2
    have e1 := congrArg ProbabilityEstimate.probability (Option.some.inj h1)
    have e2 := congrArg ProbabilityEstimate.probability (Option.some.inj h2)
    dsimp only at e1 e2
    rw [← e1, ← e2, hT]
    apply round2_mono
    have hm : min (sig1.signal_score / 100) 1 ≤ min (sig2.signal_score / 100) 1 :=
      min_le_min (by linarith) (le_refl 1)
    nlinarith [hm]

/-- Witness for C6 at scores 50 and 60 against a fixed LOW-risk,
stability-1 profile: probabilities 68 and 73.5. -/
theorem prob_mono_c6_witness : c6P1.probability ≤ c6P2.probability := by
  have hlook : slookup riskComponentTable c6Risk.risk_level = some 0.85 := by
    norm_num [slookup, riskComponentTable, c6Risk]
  have k1 : estimate_probability c6Sig1 c6Risk = some c6P1 := by
    rw [estimate_probability, hlook, Option.map_some']
    have harg : (min (c6Sig1.signal_score / 100) 1 * 0.55 + (0.85 : ℚ) * 0.30 +
        c6Risk.trend_stability * 0.15) * 100 = 68 := by
      norm_num [c6Sig1, c6Risk, min_def]
    dsimp only
    rw [harg, round2_of_cast _ 6800 (by norm_num)]
    norm_num [c6P1]
  have k2 : estimate_probability c6Sig2 c6Risk = some c6P2 := by
    rw [estimate_probability, hlook, Option.map_some']
    have harg : (min (c6Sig2.signal_score / 100) 1 * 0.55 + (0.85 : ℚ) * 0.30 +
        c6Risk.trend_stability * 0.15) * 100 = 73.5 := by
      norm_num [c6Sig2, c6Sig1, c6Risk, min_def]
    dsimp only
    rw [harg, round2_of_cast _ 7350 (by norm_num)]
    norm_num [c6P2]
  exact prob_mono_c6 c6Sig1 c6Sig2 c6Risk c6Risk c6P1 c6P2 rfl rfl
    (by norm_num [c6Sig1, c6Sig2]) k1 k2

/-- C7: every row of an enriched table has every derived indicator
column defined (non-null): `dropna()` removes each row with any null
derived cell, so the all-columns-defined predicate holds of the whole
result (vacuously of an omitted/failed symbol's absent table). -/
theorem enriched_nonnull_c7 (t : RawTable) :
    ((enrichSymbol t).toOption.getD []).all
      (fun r => r.RSI14.isSome && r.SMA20.isSome && r.SMA50.isSome &&
        r.SMA200.isSome && r.EMA20.isSome && r.VWAP.isSome && r.MACD.isSome &&
        r.MACDSignal.isSome && r.MACDHist.isSome && r.Ret1D.isSome &&
        r.Ret5D.isSome && r.VolumeAvg20.isSome && r.VolumeRatio.isSome) = true := by
  rw [enrichSymbol]
  cases hc : colOf t "Close" with
  | error e => simp [Bind.bind, Except.bind, Except.toOption]
  | ok close =>
    cases hh : colOf t "High" with
    | error e => simp [Bind.bind, Except.bind, Except.toOption]
    | ok high =>
      cases hl : colOf t "Low" with
      | error e => simp [Bind.bind, Except.bind, Except.toOption]
      | ok low =>
        cases hv : colOf t "Volume" with
        | error e => simp [Bind.bind, Except.bind, Functor.map, Except.map,
            Except.toOption]
        | ok volume =>
          simp only [Bind.bind, Except.bind, Functor.map, Except.map,
            Except.toOption, Option.getD_some]
          rw [List.all_eq_true]
          intro r hr
          exact (List.mem_filter.mp hr).2

/-- C8: a symbol whose enrichment raises is omitted from the output
mapping and every other symbol's result is exactly what it would have
been without the bad symbol; under unique symbols the bad key is
absent from the output. -/
theorem bad_symbol_omitted_c8 (l1 l2 : List (String × RawTable)) (s : String)
    (t : RawTable) (e : String) (he : enrichSymbol t = .error e) :
    enrich_with_indicators (l1 ++ (s, t) :: l2) = enrich_with_indicators (l1 ++ l2)
    ∧ (s ∉ (l1 ++ l2).map Prod.fst →
        ∀ pr ∈ enrich_with_indicators (l1 ++ (s, t) :: l2), pr.1 ≠ s) := by
  have hnone : (enrichSymbol t).toOption.map (fun rows => (s, rows)) = none := by
    rw [he]
    rfl
  constructor
  · rw [enrich_with_indicators, enrich_with_indicators, List.filterMap_append,
      List.filterMap_append, List.filterMap_cons]
    dsimp only
    rw [hnone]
  · intro hs pr hpr
    obtain ⟨⟨s', t'⟩, hmem, heq⟩ := List.mem_filterMap.mp hpr
    dsimp only at heq
    cases ho : (enrichSymbol t').toOption with
    | none => rw [ho] at heq; cases heq
    | some rows =>
      rw [ho, Option.map_some'] at heq
      have hfst : pr.1 = s' := congrArg Prod.fst (Option.some.inj heq).symm
      rcases List.mem_append.mp hmem with hm1 | hm2
      · intro hcontra
        exact hs (List.mem_map.mpr ⟨(s', t'),
          List.mem_append.mpr (Or.inl hm1), by show s' = s; rw [← hfst]; exact hcontra⟩)
      · rcases List.mem_cons.mp hm2 with hme | hm3
        · have ht' : t' = t := congrArg Prod.snd hme
          rw [ht', he] at ho
          cases ho
        · intro hcontra
          exact hs (List.mem_map.mpr ⟨(s', t'),
            List.mem_append.mpr (Or.inr hm3), by show s' = s; rw [← hfst]; exact hcontra⟩)

/-- Witness for C8: a batch of one good (empty-column) table and one
table whose `Close` column is missing; the bad symbol is dropped and
the good symbol's result is unchanged. -/
theorem bad_symbol_omitted_c8_witness :
    enrich_with_indicators [("A", emptyColsTable), ("B", noCloseTable)] =
      enrich_with_indicators [("A", emptyColsTable)] :=
  (bad_symbol_omitted_c8 [("A", emptyColsTable)] [] "B" noCloseTable
    "KeyError: Close"
    (by have h1 : slookup noCloseTable "Close" = none := by decide
        have hcl : colOf noCloseTable "Close" = .error "KeyError: Close" := by
          rw [colOf, h1]
          exact congrArg Except.error (by decide)
        rw [enrichSymbol, hcl]
        rfl)).1

theorem getD_map_range {α : Type} {n i : ℕ} (g : ℕ → α) (hi : i < n) (d : α) :
    ((List.range n).map g).getD i d = g i := by
  rw [List.getD_eq_getElem?_getD, List.getElem?_map, List.getElem?_range hi]
  rfl

theorem filter_short_table (close high low volume : List ℚ)
    (h : close.length < 200) :
    (assembleRows close high low volume).filter allDerivedSome = [] := by
  rw [List.filter_eq_nil_iff]
  intro r hr
  rw [assembleRows] at hr
  obtain ⟨i, hir, rfl⟩ := List.mem_map.mp hr
  have hi : i < close.length := List.mem_range.mp hir
  have hs : (smaList 200 close).getD i none = none := by
    rw [smaList, getD_map_range _ hi, if_neg (by omega)]
  intro hc
  rw [allDerivedSome] at hc
  dsimp only at hc
  rw [hs] at hc
  simp at hc

theorem enrichSymbol_c9 : enrichSymbol c9Table = .ok [] := by
  have hc : colOf c9Table "Close" = .ok (List.replicate 60 100) := by
    rw [colOf, show slookup c9Table "Close" = some (List.replicate 60 100) from by decide]
  have hh : colOf c9Table "High" = .ok (List.replicate 60 100) := by
    rw [colOf, show slookup c9Table "High" = some (List.replicate 60 100) from by decide]
  have hl : colOf c9Table "Low" = .ok (List.replicate 60 100) := by
    rw [colOf, show slookup c9Table "Low" = some (List.replicate 60 100) from by decide]
  have hv : colOf c9Table "Volume" = .ok (List.replicate 60 1000) := by
    rw [colOf, show slookup c9Table "Volume" = some (List.replicate 60 1000) from by decide]
  rw [enrichSymbol, hc, hh, hl, hv]
  simp only [Bind.bind, Except.bind, Functor.map, Except.map]
  rw [filter_short_table _ _ _ _ (by simp)]
  rfl

/-- Counterexample for C9: a universe of one symbol whose 60-bar
history passes collection but whose enrichment drops every row (the
200-bar SMA warm-up), after which the run completes normally with an
empty report instead of failing. -/
theorem run_empty_enrichment_c9_counterexample :
    run_daily_analysis (fun _ => 0) ["X"]
      (fun s => if s = "X" then some c9Table else none) = .ok [] := by
  have hp : passesCollect c9Table = true := by decide
  have hcol : collect_market_data ["X"]
      (fun s => if s = "X" then some c9Table else none) = .ok [("X", c9Table)] := by
    rw [collect_market_data, if_neg (by simp)]
    simp only [List.filterMap_cons, List.filterMap_nil, if_pos rfl,
      Option.some_bind, hp, if_pos]
    rw [if_neg (by simp)]
  have henr : enrich_with_indicators [("X", c9Table)] = [("X", [])] := by
    rw [enrich_with_indicators]
    simp only [List.filterMap_cons, List.filterMap_nil]
    rw [enrichSymbol_c9]
    rfl
  rw [run_daily_analysis, hcol]
  simp only [Bind.bind, Except.bind, henr]
  rfl

/-- C9 as the code implements it: an empty universe or a universe in
which no symbol yields usable market data aborts the run with a
run-level error, but when collection succeeds and no symbol survives
enrichment the run completes normally with an empty report. -/
theorem run_failure_modes_c9 (sq : ℚ → ℚ) (univ : List String)
    (fetch : String → Option RawTable) :
    run_daily_analysis sq [] fetch = .error "No symbols available for analysis"
    ∧ (univ ≠ [] →
        univ.filterMap (fun s => (fetch s).bind fun t =>
          if passesCollect t then some (s, t) else none) = [] →
        run_daily_analysis sq univ fetch =
          .error "Market data collection failed for all symbols")
    ∧ (∀ ph, collect_market_data univ fetch = .ok ph →
        (∀ p ∈ enrich_with_indicators ph, p.2 = ([] : List ERow)) →
        run_daily_analysis sq univ fetch = .ok []) := by
  refine ⟨?_, ?_, ?_⟩
  · rw [run_daily_analysis, collect_market_data, if_pos rfl]
    rfl
  · intro h1 h2
    rw [run_daily_analysis, collect_market_data, if_neg h1]
    dsimp only
    rw [h2, if_pos rfl]
    rfl
  · intro ph hph hempty
    have hbc : buyCandidates
        ((enrich_with_indicators ph).map fun p => (p.1, p.2.map toRow)) = [] := by
      rw [buyCandidates, List.filterMap_eq_nil_iff]
      intro p' hp'
      obtain ⟨p, hp, rfl⟩ := List.mem_map.mp hp'
      rw [hempty p hp]
      rfl
    have hsc : sellCandidates
        ((enrich_with_indicators ph).map fun p => (p.1, p.2.map toRow)) = [] := by
      rw [sellCandidates, List.filterMap_eq_nil_iff]
      intro p' hp'
      obtain ⟨p, hp, rfl⟩ := List.mem_map.mp hp'
      rw [hempty p hp]
      rfl
    have hgen : generate_signals
        ((enrich_with_indicators ph).map fun p => (p.1, p.2.map toRow)) 10 = [] := by
      rw [generate_signals, hbc, hsc]
      rfl
    rw [run_daily_analysis, hph]
    simp only [Bind.bind, Except.bind]
    rw [hgen]
    rfl

/-- Witness for the C9 amended statement: a universe whose only
symbol's fetch fails aborts the run with the collection error. -/
theorem run_failure_modes_c9_witness :
    run_daily_analysis (fun _ => 0) ["X"] (fun _ => none) =
      .error "Market data collection failed for all symbols" :=
  (run_failure_modes_c9 (fun _ => 0) ["X"] (fun _ => none)).2.1 (by simp) rfl

/-- C10: an input on which symbol `X` earns both a BUY (score 55) and
a SELL (score 60) signal in one run.  The risk and probability dicts,
keyed by symbol only, keep one entry — the one from the SELL signal,
processed last since all BUYs precede all SELLs — so both report rows
for `X` carry the SELL stop-loss 103 (not the BUY's 97) and the
SELL-derived probability 73.5. -/
theorem dict_overwrite_c10 (sq : ℚ → ℚ) (h0 : sq 0 = 0) :
    generate_signals c10Ind 10 =
      [mkBuySignal "X" c10BaseRow, mkSellSignal "X" c10BaseRow]
    ∧ batch_evaluate sq (generate_signals c10Ind 10) c10Ind = [("X", c10Risk)]
    ∧ c10Risk.stop_loss = (mkSellSignal "X" c10BaseRow).stop_loss
    ∧ (mkSellSignal "X" c10BaseRow).stop_loss = 103
    ∧ (mkBuySignal "X" c10BaseRow).stop_loss = 97
    ∧ buildProbabilities (generate_signals c10Ind 10)
        (batch_evaluate sq (generate_signals c10Ind 10) c10Ind) =
        .ok [("X", c10Prob)]
    ∧ build_report (generate_signals c10Ind 10)
        (batch_evaluate sq (generate_signals c10Ind 10) c10Ind)
        [("X", c10Prob)] = .ok [c10BuyReport, c10SellReport] := by
  have hbuy : buyScore c10BaseRow = 55 := by
    norm_num [buyScore, c10BaseRow, min_def, max_def]
  have hsell : sellScore c10BaseRow = 60 := by
    norm_num [sellScore, c10BaseRow, min_def, max_def, abs_of_nonpos]
  have hbcand : buyCandidates c10Ind = [mkBuySignal "X" c10BaseRow] := by
    simp only [buyCandidates, c10Ind, List.filterMap_cons, List.filterMap_nil,
      List.getLast?_cons_cons, List.getLast?_singleton, Option.some_bind, hbuy]
    norm_num
  have hscand : sellCandidates c10Ind = [mkSellSignal "X" c10BaseRow] := by
    simp only [sellCandidates, c10Ind, List.filterMap_cons, List.filterMap_nil,
      List.getLast?_cons_cons, List.getLast?_singleton, Option.some_bind, hsell]
    norm_num
  have hsigs : generate_signals c10Ind 10 =
      [mkBuySignal "X" c10BaseRow, mkSellSignal "X" c10BaseRow] := by
    rw [generate_signals, hbcand, hscand]
    rfl
  have hlook : slookup c10Ind "X" = some [c10BaseRow, c10BaseRow, c10BaseRow] := by
    simp [slookup, c10Ind]
  have hclose : List.map Row.Close [c10BaseRow, c10BaseRow, c10BaseRow] =
      [100, 100, 100] := by
    simp [c10BaseRow]
  have hret : pctChanges [(100 : ℚ), 100, 100] = [0, 0] := by
    norm_num [pctChanges]
  have hvar : sampleVar [(0 : ℚ), 0] = 0 := by
    norm_num [sampleVar]
  have hvol : volatilityOf sq [(100 : ℚ), 100, 100] = 0 := by
    rw [volatilityOf, hret, hvar, h0, zero_mul]
  have hcum : cumprod (List.map (fun r => (1 : ℚ) + r) [0, 0]) = [1, 1] := by
    norm_num [cumprod, List.scanl]
  have hrmax : runningMax [(1 : ℚ), 1] = [1, 1] := by
    norm_num [runningMax, List.scanl, max_def]
  have hzip : List.zipWith (fun c p => (c - p) / p) [(1 : ℚ), 1] [(1 : ℚ), 1] =
      [0, 0] := by
    norm_num
  have hlmin : listMin [(0 : ℚ), 0] = 0 := by
    norm_num [listMin, min_def]
  have htrend : trendStrengthOf [(100 : ℚ), 100, 100] = 0 := by
    rw [trendStrengthOf, if_neg (by norm_num)]
  have hstab : trendStabilityOf 0 0 = 1 := by
    norm_num [trendStabilityOf]
  have r4_0 : round4 0 = 0 := by
    rw [round4, show (0 : ℚ) * 10000 = ((0 : ℤ) : ℚ) by norm_num, roundHE_intCast]
    norm_num
  have r4_1 : round4 1 = 1 := by
    rw [round4, show (1 : ℚ) * 10000 = ((10000 : ℤ) : ℚ) by norm_num, roundHE_intCast]
    norm_num
  have hstop103 : round2 ((100 : ℚ) * 1.03) = 103 := by
    rw [round2_of_cast _ 10300 (by norm_num)]
    norm_num
  have hstop97 : round2 ((100 : ℚ) * 0.97) = 97 := by
    rw [round2_of_cast _ 9700 (by norm_num)]
    norm_num
  have h105 : round2 ((100 : ℚ) * 1.05) = 105 := by
    rw [round2_of_cast _ 10500 (by norm_num)]
    norm_num
  have h95 : round2 ((100 : ℚ) * 0.95) = 95 := by
    rw [round2_of_cast _ 9500 (by norm_num)]
    norm_num
  have h100 : round2 (100 : ℚ) = 100 := by
    rw [round2_of_cast _ 10000 (by norm_num)]
    norm_num
  have hsl : (mkSellSignal "X" c10BaseRow).stop_loss = 103 := hstop103
  have hrisk : evaluate_risk sq (mkSellSignal "X" c10BaseRow)
      [c10BaseRow, c10BaseRow, c10BaseRow] = c10Risk := by
    rw [evaluate_risk]
    rw [hclose, hret, hvol, hcum, hrmax, hzip, hlmin, abs_zero, htrend, hstab,
      r4_0, r4_1]
    norm_num [riskLevelOf, min_def, c10Risk, hsl]
  have hsymB : (mkBuySignal "X" c10BaseRow).symbol = "X" := rfl
  have hsymS : (mkSellSignal "X" c10BaseRow).symbol = "X" := rfl
  have hbatch : batch_evaluate sq
      [mkBuySignal "X" c10BaseRow, mkSellSignal "X" c10BaseRow] c10Ind =
      [("X", c10Risk)] := by
    rw [batch_evaluate]
    simp only [List.foldl_cons, List.foldl_nil, hsymB, hsymS, hlook,
      Option.getD_some, hrisk]
    simp [dictUpsert]
  have hrlook : slookup [("X", c10Risk)] "X" = some c10Risk := by
    simp [slookup]
  have hplook : slookup [("X", c10Prob)] "X" = some c10Prob := by
    simp [slookup]
  have hscB : (mkBuySignal "X" c10BaseRow).signal_score = 55 := by
    simp only [mkBuySignal]
    exact hbuy
  have hscS : (mkSellSignal "X" c10BaseRow).signal_score = 60 := by
    simp only [mkSellSignal]
    exact hsell
  have hcomp : slookup riskComponentTable c10Risk.risk_level = some 0.85 := by
    norm_num [slookup, riskComponentTable, c10Risk]
  have hestB : estimate_probability (mkBuySignal "X" c10BaseRow) c10Risk =
      some ⟨70.75, "Strong trend continuation"⟩ := by
    rw [estimate_probability, hcomp, Option.map_some']
    rw [hscB]
    dsimp only
    have harg : (min ((55 : ℚ) / 100) 1 * 0.55 + (0.85 : ℚ) * 0.30 +
        c10Risk.trend_stability * 0.15) * 100 = 70.75 := by
      norm_num [c10Risk, min_def]
    rw [harg, round2_of_cast _ 7075 (by norm_num)]
    norm_num
  have hestS : estimate_probability (mkSellSignal "X" c10BaseRow) c10Risk =
      some c10Prob := by
    rw [estimate_probability, hcomp, Option.map_some']
    rw [hscS]
    dsimp only
    have harg : (min ((60 : ℚ) / 100) 1 * 0.55 + (0.85 : ℚ) * 0.30 +
        c10Risk.trend_stability * 0.15) * 100 = 73.5 := by
      norm_num [c10Risk, min_def]
    rw [harg, round2_of_cast _ 7350 (by norm_num)]
    norm_num [c10Prob]
  have hprobs : buildProbabilities
      [mkBuySignal "X" c10BaseRow, mkSellSignal "X" c10BaseRow]
      [("X", c10Risk)] = .ok [("X", c10Prob)] := by
    rw [buildProbabilities]
    simp only [List.foldlM_cons, List.foldlM_nil, hsymB, hsymS, hrlook, hestB,
      hestS, Bind.bind, Except.bind]
    simp [dictUpsert]
    rfl
  have hBS : ("BUY" : String) < "SELL" := by
    rw [String.lt_iff_toList_lt]
    decide
  have hreport : build_report
      [mkBuySignal "X" c10BaseRow, mkSellSignal "X" c10BaseRow]
      [("X", c10Risk)] [("X", c10Prob)] = .ok [c10BuyReport, c10SellReport] := by
    rw [build_report]
    simp only [List.mapM_cons, List.mapM_nil, hsymB, hsymS, hrlook, hplook,
      Bind.bind, Except.bind, Pure.pure, Except.pure]
    dsimp only [mkBuySignal, mkSellSignal, c10BaseRow]
    rw [h100, h105, h95]
    simp only [List.isEmpty_cons, List.insertionSort, List.orderedInsert]
    rw [if_neg (by simp), if_pos (Or.inl hBS)]
    norm_num [c10BuyReport, c10SellReport, c10Risk, c10Prob]
  refine ⟨hsigs, ?_, ?_, ?_, ?_, ?_, ?_⟩
  · rw [hsigs]
    exact hbatch
  · exact hstop103.symm
  · exact hstop103
  · exact hstop97
  · rw [hsigs, hbatch]
    exact hprobs
  · rw [hsigs, hbatch]
    exact hreport

/-- Witness for C10 at the zero square-root stub, which is exact on
the zero-variance data of the scenario: the risk dict keeps only the
SELL-derived profile for `X`. -/
theorem dict_overwrite_c10_witness :
    batch_evaluate (fun _ => 0) (generate_signals c10Ind 10) c10Ind =
      [("X", c10Risk)] :=
  (dict_overwrite_c10 (fun _ => 0) rfl).2.1

end SensexBot
